import Mathlib

/-!
Verification development for the SKYSIM autonomous-UAV simulator.

Part 1 models the WebSocket telemetry relay (backend/server.py) by a shallow
embedding: JSON values are an inductive type, the per-message handler body is
a pure function from the parse result of an incoming frame to a step result
(one reply, no reply, or a crash of the connection), and the periodic sender
is a pure function from its schedule of picks and send outcomes to the list
of frames it delivers.
-/

/-- JSON values, as produced by the relay wire protocol.  Numbers in the
protocol messages that the claims mention are integers, so the numeric leaf
is an `Int`. -/
inductive Json where
  | null : Json
  | bool (b : Bool) : Json
  | num (n : Int) : Json
  | str (s : String) : Json
  | arr (xs : List Json) : Json
  | obj (fields : List (String × Json)) : Json

/-- `dictGet fs k` embeds Python `data.get(k)` on a dict with entry list
`fs`: the value of the first entry named `k`, and `None` when absent. -/
def dictGet : List (String × Json) → String → Json
  | [], _ => Json.null
  | (k, v) :: rest, key => if k = key then v else dictGet rest key

/-- Python truthiness of a JSON value: `None`, `False`, zero, the empty
string, the empty list and the empty dict are falsy; everything else is
truthy. -/
def pyTruthy : Json → Bool
  | Json.null => false
  | Json.bool b => b
  | Json.num n => n ≠ 0
  | Json.str s => s ≠ ""
  | Json.arr xs => !xs.isEmpty
  | Json.obj fs => !fs.isEmpty

/-- Python `a or b` on JSON values: `a` when truthy, else `b`. -/
def pyOr (a b : Json) : Json := if pyTruthy a then a else b

/-- Python `str()` of a JSON value, as interpolated by the f-string that
builds the ack message.  Exact for `None`, booleans, integers and strings —
the only shapes the protocol claims exercise; for lists and dicts the Python
repr rendering is abbreviated to a bracketed comma-join of the members. -/
def pyStr : Json → String
  | Json.null => "None"
  | Json.bool b => if b then "True" else "False"
  | Json.num n => toString n
  | Json.str s => s
  | Json.arr xs => "[" ++ String.intercalate ", " (xs.map pyStrAux) ++ "]"
  | Json.obj fs => "\x7b" ++ String.intercalate ", " (fs.map (fun p => p.1 ++ ": " ++ pyStrAux p.2)) ++ "\x7d"
where
  pyStrAux : Json → String
  | Json.null => "None"
  | Json.bool b => if b then "True" else "False"
  | Json.num n => toString n
  | Json.str s => s
  | Json.arr _ => "[...]"
  | Json.obj _ => "\x7b...\x7d"

/-- The module-level command table of backend/server.py (`COMMANDS`):
four fixed (action, data) pairs. -/
def COMMANDS : List (String × String) :=
  [ ("patrol", "Executing search pattern"),
    ("avoid", "Obstacle detected, adjusting path"),
    ("navigate", "Moving to waypoint"),
    ("hover", "Maintaining position") ]

/-- The frame the periodic sender builds from a chosen table entry:
`message = {"type": "command", "action": cmd["action"], "data": cmd["data"]}`. -/
def commandMsg (cmd : String × String) : Json :=
  Json.obj [ ("type", Json.str "command"),
             ("action", Json.str cmd.1),
             ("data", Json.str cmd.2) ]

/-- The ack frame the handler builds for an `nl_command`/`nl_text` message:
`{"type": "ack", "message": f"Received NL input: {original}", "command": command}`. -/
def ackMsg (original command : Json) : Json :=
  Json.obj [ ("type", Json.str "ack"),
             ("message", Json.str ("Received NL input: " ++ pyStr original)),
             ("command", command) ]

/-- Outcome of the handler body for one incoming frame: at most one reply is
sent back; a frame whose parse result the body cannot process without an
uncaught exception crashes the connection. -/
inductive StepResult where
  | reply (j : Json) : StepResult
  | silent : StepResult
  | crash : StepResult

/-- The dispatch on `msg_type = data.get("type")` in the handler of
backend/server.py, for a message that parsed to a JSON value.  The
`telemetry`, `status` and `obstacles` branches and the final `else` branch
only print; the `nl_command`/`nl_text` branch builds and sends the ack.
`data.get` on a non-dict raises `AttributeError`, which no enclosing
`except` in the handler catches, so a non-object JSON value crashes the
connection. -/
def handleData : Json → StepResult
  | Json.obj fields =>
      match dictGet fields "type" with
      | Json.str ty =>
          if ty = "telemetry" then StepResult.silent
          else if ty = "status" then StepResult.silent
          else if ty = "nl_command" ∨ ty = "nl_text" then
            let original := pyOr (dictGet fields "original") (dictGet fields "text")
            let command := dictGet fields "command"
            StepResult.reply (ackMsg original command)
          else if ty = "obstacles" then StepResult.silent
          else StepResult.silent
      | _ => StepResult.silent
  | _ => StepResult.crash

/-- One incoming raw frame, represented by its parse result: `none` is a
frame `json.loads` rejects.  The inner `try` of the handler catches exactly
the parse failure, prints, and `continue`s. -/
def handleParsed : Option Json → StepResult
  | none => StepResult.silent
  | some d => handleData d

/-- The replies a connection sends over a stream of incoming frames: the
handler processes frames in order; a silent frame contributes nothing, a
crash ends processing of the stream. -/
def repliesOf : List (Option Json) → List Json
  | [] => []
  | m :: ms =>
      match handleParsed m with
      | StepResult.reply j => j :: repliesOf ms
      | StepResult.silent => repliesOf ms
      | StepResult.crash => []

/-- An event of the relay process: an incoming client frame on some
connection, or one tick of a periodic sender that picked table index
`pick`. -/
inductive RelayEvent where
  | incoming (m : Option Json) : RelayEvent
  | tick (pick : Nat) : RelayEvent

/-- One step of the relay against the module-level command table: the
handler branches never assign to the table, and the sender only reads
`random.choice(COMMANDS)` from it, so every step returns the table
unchanged together with the frame it emits (the sender frame on a tick,
the optional reply on an incoming frame). -/
def relayStep (t : List (String × String)) : RelayEvent → List (String × String) × Option Json
  | RelayEvent.incoming m =>
      match handleParsed m with
      | StepResult.reply j => (t, some j)
      | _ => (t, none)
  | RelayEvent.tick pick =>
      (t, some (commandMsg (t.getD (pick % t.length) ("", ""))))

/-- The table after the relay processes a whole event sequence. -/
def relayTableAfter (t : List (String × String)) (es : List RelayEvent) : List (String × String) :=
  es.foldl (fun acc e => (relayStep acc e).1) t

/-- One sender-loop iteration schedule entry: the table index `random.choice`
picked, and whether `websocket.send` succeeded. -/
structure SenderTick where
  pick : Nat
  ok : Bool
deriving DecidableEq, Repr

/-- The frames a periodic sender delivers over its schedule: each iteration
picks a command and sends it; the first failed send raises inside the loop,
the `except` prints and `break`s, and nothing further is delivered.  A
finite schedule models the cancellation of the sender task when its
connection closes. -/
def senderRun : List SenderTick → List Json
  | [] => []
  | tk :: rest =>
      if tk.ok then commandMsg (COMMANDS.getD (tk.pick % COMMANDS.length) ("", "")) :: senderRun rest
      else []

/-- Everything one connection feeds the relay: its sender schedule and its
incoming frame stream. -/
structure ConnInput where
  sends : List SenderTick
  incoming : List (Option Json)

/-- What one connection observes: the frames its own sender delivered and
the replies to its own incoming frames.  Each connection is served by its
own handler coroutine and sender task, which read nothing of any other
connection. -/
def connRun (c : ConnInput) : List Json × List Json :=
  (senderRun c.sends, repliesOf c.incoming)

/-- The relay serves every connection independently. -/
def serverRun (conns : List ConnInput) : List (List Json × List Json) :=
  conns.map connRun

/-!
Part 2 models the pieces of the core simulator that the repository ships
only through their callers (examples/ and plugins/ import `src.core` and
`src.algorithms`, whose files are not part of this source tree): the
`ControlInput` actuation record, the `run_autonomous` stepping loop, the
A* pathfinder, and the `WaypointFollower` strategy.  Each is modelled from
the specification text and marked so in its doc comment.  Real-valued
quantities are embedded as rationals.
-/

/-- Modelled from the spec: `ControlInput` of `src.core.types` is not in the
source tree.  Per the data model, it carries roll, pitch, yaw and thrust,
each normalized to a documented range; the attitude commands range over
[-1, 1] and thrust over [0, 1] (the exact bounds are not in the tree; the
example plugin treats thrust as a fraction around a 0.6 hover baseline). -/
structure ControlInput where
  roll : ℚ
  pitch : ℚ
  yaw : ℚ
  thrust : ℚ
deriving DecidableEq

/-- Clamping of one field to [lo, hi]: any value outside the range goes to
the nearest bound. -/
def clampField (lo hi v : ℚ) : ℚ := max lo (min hi v)

/-- Modelled from the spec: `ControlInput.clamp()` maps any field outside
its range to the nearest bound. -/
def ControlInput.clamp (c : ControlInput) : ControlInput where
  roll := clampField (-1) 1 c.roll
  pitch := clampField (-1) 1 c.pitch
  yaw := clampField (-1) 1 c.yaw
  thrust := clampField 0 1 c.thrust

/-- All fields of a `ControlInput` lie within the documented actuation
range. -/
def ControlInput.inRange (c : ControlInput) : Prop :=
  -1 ≤ c.roll ∧ c.roll ≤ 1 ∧ -1 ≤ c.pitch ∧ c.pitch ≤ 1 ∧
  -1 ≤ c.yaw ∧ c.yaw ≤ 1 ∧ 0 ≤ c.thrust ∧ c.thrust ≤ 1

instance (c : ControlInput) : Decidable c.inRange := by
  unfold ControlInput.inRange; infer_instance

/-- Modelled from the spec: the body of `run_autonomous(algorithm,
max_steps)` of the core `Simulator`, which is not in the source tree.  The
loop is parameterized by the per-tick physics/sensor/control advance
`tick`, the boundary-box membership test `inBounds`, and the registered
step observers `obs`, each of which may request `stop()`; the stop flag is
checked at the top of each iteration, so a stop requested during a tick
takes effect before the next tick.  The result is the trace of observer
invocations: one entry per executed tick, holding the stop votes of each
observer in registration order. -/
def runAuto {S : Type} (tick : S → S) (inBounds : S → Bool)
    (obs : List (S → Bool)) : Nat → S → List (List Bool)
  | 0, _ => []
  | Nat.succ fuel, s =>
      let s' := tick s
      let votes := obs.map (fun o => o s')
      if votes.any id then [votes]
      else if inBounds s' then votes :: runAuto tick inBounds obs fuel s'
      else [votes]

/-- Number of ticks `run_autonomous` executes from state `s` with budget
`maxSteps`. -/
def ticksRun {S : Type} (tick : S → S) (inBounds : S → Bool)
    (obs : List (S → Bool)) (maxSteps : Nat) (s : S) : Nat :=
  (runAuto tick inBounds obs maxSteps s).length

/-- 3D vector with rational coordinates (the geometry/math primitive
`Vector3D` of `src.core.types`). -/
structure Vector3D where
  x : ℚ
  y : ℚ
  z : ℚ
deriving DecidableEq

/-- Squared Euclidean distance between two points.  Comparisons of
distances against thresholds are embedded as comparisons of squares, which
agree with the source float comparisons on nonnegative quantities. -/
def distSq (a b : Vector3D) : ℚ :=
  (a.x - b.x) ^ 2 + (a.y - b.y) ^ 2 + (a.z - b.z) ^ 2

/-- Modelled from the spec: the tagged obstacle variants of the data model
(`sphere{center, radius}`, `box{center, half_extents}`,
`cylinder{center, radius, height}`); the defining module is not in the
source tree. -/
inductive Obstacle where
  | sphere (center : Vector3D) (radius : ℚ) : Obstacle
  | box (center : Vector3D) (halfExtents : Vector3D) : Obstacle
  | cylinder (center : Vector3D) (radius height : ℚ) : Obstacle

/-- Modelled from the spec: the closed-form point-in-inflated-obstacle test
behind `is_blocked(point, inflation_radius)` — point-sphere, point-box with
half-extents grown by the inflation radius, and point-capped-cylinder with
the cap interval and radius grown by it.  The cylinder center is its base
center, per the configuration shapes used by the pathfinding demo. -/
def pointWithinInflated (inflation : ℚ) (p : Vector3D) : Obstacle → Bool
  | Obstacle.sphere c r => distSq p c ≤ (r + inflation) ^ 2
  | Obstacle.box c h =>
      |p.x - c.x| ≤ h.x + inflation ∧ |p.y - c.y| ≤ h.y + inflation ∧
        |p.z - c.z| ≤ h.z + inflation
  | Obstacle.cylinder c r ht =>
      (p.x - c.x) ^ 2 + (p.y - c.y) ^ 2 ≤ (r + inflation) ^ 2 ∧
        c.z - inflation ≤ p.z ∧ p.z ≤ c.z + ht + inflation

/-- A grid cell, indexed from the minimum corner of the bounding volume. -/
abbrev Cell := Int × Int × Int

/-- The 26-connected neighborhood of a cell: all offset combinations in
{-1, 0, 1}³ except the zero offset. -/
def neighbors (c : Cell) : List Cell :=
  ([-1, 0, 1] : List Int).flatMap (fun dx =>
    ([-1, 0, 1] : List Int).flatMap (fun dy =>
      ([-1, 0, 1] : List Int).filterMap (fun dz =>
        if dx = 0 ∧ dy = 0 ∧ dz = 0 then none
        else some (c.1 + dx, c.2.1 + dy, c.2.2 + dz))))

/-- Modelled from the spec: the build-phase data of the `AStarPathfinder` —
a uniform 3D grid over the bounding volume at `resolution`, with
`nx × ny × nz` cells from the minimum corner `origin`, the obstacle set,
and the vehicle safety (inflation) radius. -/
structure GridSpec where
  origin : Vector3D
  resolution : ℚ
  nx : Nat
  ny : Nat
  nz : Nat
  obstacles : List Obstacle
  safety : ℚ

/-- Center of a grid cell. -/
def cellCenter (g : GridSpec) (c : Cell) : Vector3D where
  x := g.origin.x + (c.1 + 1 / 2) * g.resolution
  y := g.origin.y + (c.2.1 + 1 / 2) * g.resolution
  z := g.origin.z + (c.2.2 + 1 / 2) * g.resolution

/-- Modelled from the spec: a cell is open when it lies inside the grid and
its center is not within the inflated region of any obstacle (a cell is
blocked if its center lies within `is_blocked(center, safety_radius)`). -/
def gridOpen (g : GridSpec) (c : Cell) : Bool :=
  (0 ≤ c.1 ∧ c.1 < (g.nx : Int) ∧ 0 ≤ c.2.1 ∧ c.2.1 < (g.ny : Int) ∧
      0 ≤ c.2.2 ∧ c.2.2 < (g.nz : Int) : Bool) &&
    !(g.obstacles.any (pointWithinInflated g.safety (cellCenter g c)))

/-- Modelled from the spec: the search phase of `find_path`, a fueled
frontier search over open cells with 26-connectivity.  The A* frontier
ordering (priority by cost plus heuristic, ties by lower heuristic then
discovery order) affects only which of the existing cell paths is expanded
first, not whether the goal is ever found, so the frontier is modelled as a
FIFO queue of (cell, reversed path to it) entries; `visited` accumulates
expanded cells.  The fuel bounds expansion by the number of grid cells
(frontier exhaustion). -/
def searchLoop (isOpen : Cell → Bool) (goal : Cell) :
    Nat → List (Cell × List Cell) → List Cell → Option (List Cell)
  | 0, _, _ => none
  | _ + 1, [], _ => none
  | fuel + 1, (c, path) :: rest, visited =>
      if c = goal then some path.reverse
      else
        let seen := c :: visited
        let ns := (neighbors c).filter (fun n =>
          isOpen n && !seen.contains n && !(rest.any (fun e => e.1 = n)))
        searchLoop isOpen goal fuel (rest ++ ns.map (fun n => (n, n :: path))) seen

/-- Modelled from the spec: `find_path` of the `AStarPathfinder` (not in
the source tree).  Per the stated contract, a blocked start or goal cell is
a failure: when the start or goal cell is blocked, or the search exhausts
the grid without reaching the goal, the result is `none` — a normal value,
never an exception. -/
def find_path (g : GridSpec) (start goal : Cell) : Option (List Cell) :=
  if gridOpen g start && gridOpen g goal then
    searchLoop (gridOpen g) goal (g.nx * g.ny * g.nz + 1) [(start, [start])] []
  else none

/-- One open step of grid adjacency: `b` is a 26-neighbor of `a` and is an
open cell. -/
def AdjOpen (isOpen : Cell → Bool) (a b : Cell) : Prop :=
  b ∈ neighbors a ∧ isOpen b = true

/-- The goal is reachable from the start through open cells. -/
def ReachableOpen (isOpen : Cell → Bool) (s t : Cell) : Prop :=
  Relation.ReflTransGen (AdjOpen isOpen) s t

/-- Mutable progress of a `WaypointFollower`: the index of the waypoint
currently targeted and the mission-completion flag. -/
structure WFState where
  idx : Nat
  missionComplete : Bool
deriving DecidableEq

/-- Initial `WaypointFollower` progress: targeting the first waypoint,
mission not complete. -/
def wfInit : WFState := ⟨0, false⟩

/-- Modelled from the spec: one `compute_control` tick of the
`WaypointFollower` progress update (the defining module is not in the
source tree).  The follower aims at the waypoint at the current index;
when the vehicle-to-current-waypoint distance drops below
`waypoint_threshold` it advances the index, and once the waypoint reached
within threshold is the final one it sets `mission_complete`, which is
never retracted.  Distances are compared by their squares
(`thrSq = waypoint_threshold ^ 2`). -/
def wfStep (wps : List Vector3D) (thrSq : ℚ) (st : WFState) (pos : Vector3D) : WFState :=
  if distSq pos (wps.getD st.idx ⟨0, 0, 0⟩) < thrSq then
    if wps.length ≤ st.idx + 1 then { st with missionComplete := true }
    else { st with idx := st.idx + 1 }
  else st

/-- `WaypointFollower` progress after a run over the vehicle positions
`ps`, one tick per position. -/
def wfRun (wps : List Vector3D) (thrSq : ℚ) (ps : List Vector3D) : WFState :=
  ps.foldl (wfStep wps thrSq) wfInit

/-- The completion trigger of one tick: the follower is targeting the final
waypoint and the vehicle is within threshold of it. -/
def wfTrigger (wps : List Vector3D) (thrSq : ℚ) (st : WFState) (pos : Vector3D) : Bool :=
  decide (distSq pos (wps.getD st.idx ⟨0, 0, 0⟩) < thrSq) && decide (wps.length ≤ st.idx + 1)

/-!
Theorems.  Each claim of the specification is settled by one theorem below,
named after the claim.
-/

/-- Shared helper: on any parsed object whose `type` field is the string
`nl_command` or `nl_text`, the handler dispatch reaches the ack branch and
produces exactly the ack reply built from the `original`-or-`text` value
and the `command` field. -/
theorem handleData_nl (fs : List (String × Json))
    (h : dictGet fs "type" = Json.str "nl_command" ∨ dictGet fs "type" = Json.str "nl_text") :
    handleData (Json.obj fs) =
      StepResult.reply (ackMsg (pyOr (dictGet fs "original") (dictGet fs "text"))
        (dictGet fs "command")) := by
  rcases h with h | h <;> simp [handleData, h]

/-- C1: every received client message of type `nl_command` or `nl_text`
gets back exactly one reply, the ack object whose `message` echoes the
`original`-or-`text` value and whose `command` is the message's `command`
field. -/
theorem C1_nl_ack (fs : List (String × Json))
    (h : dictGet fs "type" = Json.str "nl_command" ∨ dictGet fs "type" = Json.str "nl_text") :
    handleData (Json.obj fs) =
      StepResult.reply (ackMsg (pyOr (dictGet fs "original") (dictGet fs "text"))
        (dictGet fs "command")) :=
  handleData_nl fs h

/-- Witness for C1: the concrete exchange of the specification — the
message `{"type": "nl_command", "original": "go home", "command":
{"action": "navigate"}}` is acknowledged by `{"type": "ack", "message":
"Received NL input: go home", "command": {"action": "navigate"}}`. -/
theorem C1_nl_ack_witness :
    handleData (Json.obj [("type", Json.str "nl_command"),
        ("original", Json.str "go home"),
        ("command", Json.obj [("action", Json.str "navigate")])]) =
      StepResult.reply (Json.obj [("type", Json.str "ack"),
        ("message", Json.str "Received NL input: go home"),
        ("command", Json.obj [("action", Json.str "navigate")])]) := by
  have h := C1_nl_ack [("type", Json.str "nl_command"),
    ("original", Json.str "go home"),
    ("command", Json.obj [("action", Json.str "navigate")])] (Or.inl rfl)
  exact h

/-- C2: a frame that is not valid JSON is logged and ignored — the handler
sends no reply, keeps the connection and the command table unchanged, and
the replies over the rest of the stream are exactly those without the
malformed frame. -/
theorem C2_malformed_ignored (t : List (String × String)) (ms : List (Option Json)) :
    handleParsed none = StepResult.silent ∧
    relayStep t (RelayEvent.incoming none) = (t, none) ∧
    repliesOf (none :: ms) = repliesOf ms :=
  ⟨rfl, rfl, rfl⟩

/-- C9: a well-formed JSON object whose `type` is neither `nl_command` nor
`nl_text` (telemetry, status, obstacles, anything unrecognized, or a
non-string type) gets no reply, and processing of the stream continues. -/
theorem C9_non_nl_silent (fs : List (String × Json))
    (h : ∀ s : String, dictGet fs "type" = Json.str s → s ≠ "nl_command" ∧ s ≠ "nl_text") :
    handleData (Json.obj fs) = StepResult.silent ∧
    ∀ ms, repliesOf (some (Json.obj fs) :: ms) = repliesOf ms := by
  have hmain : handleData (Json.obj fs) = StepResult.silent := by
    rcases hty : dictGet fs "type" with _ | b | n | s | xs | gs
    · simp [handleData, hty]
    · simp [handleData, hty]
    · simp [handleData, hty]
    · obtain ⟨h1, h2⟩ := h s hty
      simp [handleData, hty, h1, h2]
    · simp [handleData, hty]
    · simp [handleData, hty]
  refine ⟨hmain, fun ms => ?_⟩
  simp [repliesOf, handleParsed, hmain]

/-- Witness for C9: a telemetry frame draws no reply and leaves the reply
stream unchanged. -/
theorem C9_non_nl_silent_witness :
    handleData (Json.obj [("type", Json.str "telemetry")]) = StepResult.silent ∧
    repliesOf [some (Json.obj [("type", Json.str "telemetry")])] = [] := by
  have h := C9_non_nl_silent [("type", Json.str "telemetry")]
    (by intro s hs
        rw [show dictGet [("type", Json.str "telemetry")] "type" = Json.str "telemetry" from rfl] at hs
        injection hs with hs
        subst hs
        exact ⟨by decide, by decide⟩)
  exact ⟨h.1, h.2 []⟩

/-- C10: the echoed original is Python `original or text` — a `null`
(also covering an absent field) or empty-string `original` falls back to
the `text` field, and with both fields absent the ack still goes out with
message `Received NL input: None`. -/
theorem C10_original_fallback (fs : List (String × Json))
    (hty : dictGet fs "type" = Json.str "nl_command" ∨ dictGet fs "type" = Json.str "nl_text") :
    ((dictGet fs "original" = Json.null ∨ dictGet fs "original" = Json.str "") →
      handleData (Json.obj fs) =
        StepResult.reply (ackMsg (dictGet fs "text") (dictGet fs "command"))) ∧
    (dictGet fs "original" = Json.null → dictGet fs "text" = Json.null →
      handleData (Json.obj fs) =
        StepResult.reply (Json.obj [("type", Json.str "ack"),
          ("message", Json.str "Received NL input: None"),
          ("command", dictGet fs "command")])) := by
  have h := handleData_nl fs hty
  constructor
  · intro ho
    rw [h]
    rcases ho with ho | ho <;> rw [ho] <;> simp [pyOr, pyTruthy]
  · intro ho htext
    rw [h, ho, htext]
    rfl

/-- Witness for C10: an `nl_text` frame whose `original` is the empty
string is acknowledged from its `text` field, and an `nl_command` frame
with neither field is acknowledged with `Received NL input: None`. -/
theorem C10_original_fallback_witness :
    handleData (Json.obj [("type", Json.str "nl_text"), ("original", Json.str ""),
        ("text", Json.str "land now")]) =
      StepResult.reply (ackMsg (Json.str "land now") Json.null) ∧
    handleData (Json.obj [("type", Json.str "nl_command")]) =
      StepResult.reply (Json.obj [("type", Json.str "ack"),
        ("message", Json.str "Received NL input: None"),
        ("command", Json.null)]) := by
  constructor
  · exact (C10_original_fallback [("type", Json.str "nl_text"), ("original", Json.str ""),
      ("text", Json.str "land now")] (Or.inr rfl)).1 (Or.inr rfl)
  · exact (C10_original_fallback [("type", Json.str "nl_command")] (Or.inl rfl)).2 rfl rfl

/-- Shared helper: whatever index the sender draws, the table entry it
reads is one of the table's pairs. -/
theorem COMMANDS_getD_mem (n : Nat) :
    COMMANDS.getD (n % COMMANDS.length) ("", "") ∈ COMMANDS := by
  have h : n % COMMANDS.length < COMMANDS.length := Nat.mod_lt _ (by decide)
  rw [List.getD_eq_getElem COMMANDS ("", "") h]
  exact List.getElem_mem h

/-- Shared helper: every frame a sender delivers is the command frame of
some pair of the table. -/
theorem senderRun_shape (sched : List SenderTick) :
    ∀ m ∈ senderRun sched, ∃ cmd, cmd ∈ COMMANDS ∧ m = commandMsg cmd := by
  induction sched with
  | nil => intro m hm; simp [senderRun] at hm
  | cons tk rest ih =>
      intro m hm
      by_cases hok : tk.ok
      · simp only [senderRun, hok, if_true, List.mem_cons] at hm
        rcases hm with hm | hm
        · exact ⟨_, COMMANDS_getD_mem tk.pick, hm⟩
        · exact ih m hm
      · simp [senderRun, hok] at hm

/-- Shared helper: no relay step writes to the command table. -/
theorem relayStep_table (t : List (String × String)) (e : RelayEvent) :
    (relayStep t e).1 = t := by
  cases e with
  | incoming m => cases h : handleParsed m <;> simp [relayStep, h]
  | tick pick => rfl

/-- C3: every frame the periodic sender emits is
`{"type": "command", "action": a, "data": d}` for an (a, d) pair of the
process-wide command table; the table is the fixed four-entry list
initialized at module load and is left unchanged by every handler and
sender step. -/
theorem C3_command_table :
    COMMANDS = [("patrol", "Executing search pattern"),
      ("avoid", "Obstacle detected, adjusting path"),
      ("navigate", "Moving to waypoint"),
      ("hover", "Maintaining position")] ∧
    (∀ sched : List SenderTick, ∀ m ∈ senderRun sched,
      ∃ cmd, cmd ∈ COMMANDS ∧
        m = Json.obj [("type", Json.str "command"), ("action", Json.str cmd.1),
          ("data", Json.str cmd.2)]) ∧
    (∀ t e, (relayStep t e).1 = t) ∧
    (∀ es, relayTableAfter COMMANDS es = COMMANDS) := by
  refine ⟨rfl, ?_, relayStep_table, ?_⟩
  · intro sched m hm
    obtain ⟨cmd, hc, hme⟩ := senderRun_shape sched m hm
    exact ⟨cmd, hc, hme⟩
  · intro es
    suffices h : ∀ es t, relayTableAfter t es = t from h es COMMANDS
    intro es
    induction es with
    | nil => intro t; rfl
    | cons e rest ih =>
        intro t
        show relayTableAfter (relayStep t e).1 rest = t
        rw [relayStep_table t e]
        exact ih t

/-- Witness for C3: the frame of a sender tick that drew index 2 is the
command frame of the `navigate` entry of the table. -/
theorem C3_command_table_witness :
    ∃ cmd, cmd ∈ COMMANDS ∧
      commandMsg ("navigate", "Moving to waypoint") =
        Json.obj [("type", Json.str "command"), ("action", Json.str cmd.1),
          ("data", Json.str cmd.2)] :=
  C3_command_table.2.1 [⟨2, true⟩] (commandMsg ("navigate", "Moving to waypoint"))
    (by rw [show senderRun [⟨2, true⟩] = [commandMsg ("navigate", "Moving to waypoint")] from rfl]
        exact List.mem_singleton_self _)

/-- C4: a failed send ends exactly that connection's periodic sender — the
frames it delivers are those before the first failure, nothing after it —
while the serving loop still serves every connection, and replacing one
connection's whole input changes no other connection's outcome. -/
theorem C4_send_failure_isolation (d : List Json × List Json) :
    (∀ (pre : List SenderTick) (p : Nat) (rest : List SenderTick),
      senderRun (pre ++ ⟨p, false⟩ :: rest) = senderRun (pre ++ [⟨p, false⟩])) ∧
    (∀ conns : List ConnInput, (serverRun conns).length = conns.length) ∧
    (∀ (conns : List ConnInput) (i : Nat) (c : ConnInput) (j : Nat), j ≠ i →
      (serverRun (conns.set i c)).getD j d = (serverRun conns).getD j d) := by
  refine ⟨?_, ?_, ?_⟩
  · intro pre p rest
    induction pre with
    | nil => simp [senderRun]
    | cons tk pre ih =>
        by_cases hok : tk.ok <;> simp [senderRun, hok, ih]
  · intro conns
    simp [serverRun]
  · intro conns i c j hj
    unfold serverRun
    rw [List.getD_eq_getElem?_getD, List.getD_eq_getElem?_getD,
      List.map_set, List.getElem?_set_ne (Ne.symm hj)]

/-- Witness for C4: a sender whose second send fails delivers the same
frames with or without a third scheduled tick, and replacing connection 0
of a two-connection relay leaves the outcome of connection 1 unchanged. -/
theorem C4_send_failure_isolation_witness :
    senderRun [⟨0, true⟩, ⟨1, false⟩, ⟨2, true⟩] = senderRun [⟨0, true⟩, ⟨1, false⟩] ∧
    (serverRun (([⟨[⟨0, false⟩], []⟩, ⟨[⟨1, true⟩], []⟩] : List ConnInput).set 0 ⟨[], []⟩)).getD 1 ([], []) =
      (serverRun [⟨[⟨0, false⟩], []⟩, ⟨[⟨1, true⟩], []⟩]).getD 1 ([], []) :=
  ⟨(C4_send_failure_isolation ([], [])).1 [⟨0, true⟩] 1 [⟨2, true⟩],
   (C4_send_failure_isolation ([], [])).2.2 [⟨[⟨0, false⟩], []⟩, ⟨[⟨1, true⟩], []⟩] 0 ⟨[], []⟩ 1
     (by decide)⟩

/-- Shared helper: a clamped field lies between the bounds. -/
theorem clampField_bounds (lo hi v : ℚ) (h : lo ≤ hi) :
    lo ≤ clampField lo hi v ∧ clampField lo hi v ≤ hi :=
  ⟨le_max_left lo _, max_le h (min_le_left hi v)⟩

/-- Shared helper: clamping a field twice is clamping it once. -/
theorem clampField_idem (lo hi v : ℚ) (h : lo ≤ hi) :
    clampField lo hi (clampField lo hi v) = clampField lo hi v := by
  obtain ⟨h1, h2⟩ := clampField_bounds lo hi v h
  unfold clampField at h1 h2 ⊢
  rw [min_eq_right h2, max_eq_right h1]

/-- C5: for every `ControlInput`, however extreme its field values, all
fields of `clamp(x)` lie within the documented actuation range, `clamp` is
idempotent (`clamp(clamp(x)) = clamp(x)`), and field clamping maps any
out-of-range value to the nearest bound: values at or below the lower
bound go to it, values at or above the upper bound go to it. -/
theorem C5_clamp_range_idempotent (c : ControlInput) :
    (ControlInput.clamp c).inRange ∧
    ControlInput.clamp (ControlInput.clamp c) = ControlInput.clamp c ∧
    (∀ lo hi v : ℚ, lo ≤ hi → v ≤ lo → clampField lo hi v = lo) ∧
    (∀ lo hi v : ℚ, lo ≤ hi → hi ≤ v → clampField lo hi v = hi) := by
  refine ⟨?_, ?_, ?_, ?_⟩
  · exact ⟨(clampField_bounds (-1) 1 c.roll (by norm_num)).1,
      (clampField_bounds (-1) 1 c.roll (by norm_num)).2,
      (clampField_bounds (-1) 1 c.pitch (by norm_num)).1,
      (clampField_bounds (-1) 1 c.pitch (by norm_num)).2,
      (clampField_bounds (-1) 1 c.yaw (by norm_num)).1,
      (clampField_bounds (-1) 1 c.yaw (by norm_num)).2,
      (clampField_bounds 0 1 c.thrust (by norm_num)).1,
      (clampField_bounds 0 1 c.thrust (by norm_num)).2⟩
  · simp only [ControlInput.clamp, ControlInput.mk.injEq]
    exact ⟨clampField_idem (-1) 1 c.roll (by norm_num),
      clampField_idem (-1) 1 c.pitch (by norm_num),
      clampField_idem (-1) 1 c.yaw (by norm_num),
      clampField_idem 0 1 c.thrust (by norm_num)⟩
  · intro lo hi v hlh hv
    unfold clampField
    rw [min_eq_right (hv.trans hlh), max_eq_left hv]
  · intro lo hi v hlh hv
    unfold clampField
    rw [min_eq_left hv, max_eq_right hlh]

/-- Witness for C5: a field value of -5 clamps to the lower attitude bound
and a thrust of 7 clamps to the upper thrust bound. -/
theorem C5_clamp_range_idempotent_witness :
    clampField (-1) 1 (-5) = -1 ∧ clampField 0 1 7 = 1 :=
  ⟨(C5_clamp_range_idempotent ⟨0, 0, 0, 0⟩).2.2.1 (-1) 1 (-5) (by norm_num) (by norm_num),
   (C5_clamp_range_idempotent ⟨0, 0, 0, 0⟩).2.2.2 0 1 7 (by norm_num) (by norm_num)⟩

/-- Shared helper: every entry of the observer-invocation trace has one
vote per registered observer. -/
theorem runAuto_entry_length {S : Type} (tick : S → S) (inBounds : S → Bool)
    (obs : List (S → Bool)) :
    ∀ (n : Nat) (s : S), ∀ entry ∈ runAuto tick inBounds obs n s,
      entry.length = obs.length := by
  intro n
  induction n with
  | zero => intro s entry he; simp [runAuto] at he
  | succ n ih =>
      intro s entry he
      by_cases h1 : (obs.map (fun o => o (tick s))).any id
      · simp only [runAuto, h1, if_true, List.mem_singleton] at he
        simp [he]
      · by_cases h2 : inBounds (tick s)
        · simp only [runAuto, h1, if_false, h2, if_true, Bool.false_eq_true,
            List.mem_cons] at he
          rcases he with he | he
          · simp [he]
          · exact ih (tick s) entry he
        · simp only [runAuto, h1, h2, if_false, Bool.false_eq_true,
            List.mem_singleton] at he
          simp [he]

/-- Shared helper: the loop never runs more than `maxSteps` ticks. -/
theorem runAuto_length_le {S : Type} (tick : S → S) (inBounds : S → Bool)
    (obs : List (S → Bool)) :
    ∀ (n : Nat) (s : S), (runAuto tick inBounds obs n s).length ≤ n := by
  intro n
  induction n with
  | zero => intro s; simp [runAuto]
  | succ n ih =>
      intro s
      by_cases h1 : (obs.map (fun o => o (tick s))).any id
      · simp [runAuto, h1]
      · by_cases h2 : inBounds (tick s)
        · simp only [runAuto, h1, if_false, h2, if_true, Bool.false_eq_true,
            List.length_cons]
          exact Nat.succ_le_succ (ih (tick s))
        · simp [runAuto, h1, h2]

/-- Shared helper: with no observer ever requesting a stop and the vehicle
always inside the boundary box, the loop runs the full budget. -/
theorem runAuto_length_eq {S : Type} (tick : S → S) (inBounds : S → Bool)
    (obs : List (S → Bool)) (hstop : ∀ o ∈ obs, ∀ x, o x = false)
    (hb : ∀ x, inBounds x = true) :
    ∀ (n : Nat) (s : S), (runAuto tick inBounds obs n s).length = n := by
  intro n
  induction n with
  | zero => intro s; simp [runAuto]
  | succ n ih =>
      intro s
      have h1 : (obs.map (fun o => o (tick s))).any id = false := by
        rw [List.any_eq_false]
        intro b hb'
        obtain ⟨o, ho, rfl⟩ := List.mem_map.mp hb'
        simp [hstop o ho (tick s)]
      simp only [runAuto, h1, hb (tick s), if_true, if_false, Bool.false_eq_true,
        List.length_cons]
      exact congrArg Nat.succ (ih (tick s))

/-- C6: the stepping loop invokes each registered step observer exactly
once per executed tick (one vote per observer per trace entry, one entry
per tick), never exceeds `max_steps` ticks, and runs exactly `max_steps`
ticks when no observer requests a stop and the vehicle never leaves the
boundary box. -/
theorem C6_run_autonomous {S : Type} (tick : S → S) (inBounds : S → Bool)
    (obs : List (S → Bool)) (maxSteps : Nat) (s : S) :
    (∀ entry ∈ runAuto tick inBounds obs maxSteps s, entry.length = obs.length) ∧
    ticksRun tick inBounds obs maxSteps s ≤ maxSteps ∧
    ((∀ o ∈ obs, ∀ x, o x = false) → (∀ x, inBounds x = true) →
      ticksRun tick inBounds obs maxSteps s = maxSteps) :=
  ⟨runAuto_entry_length tick inBounds obs maxSteps s,
   runAuto_length_le tick inBounds obs maxSteps s,
   fun hstop hb => runAuto_length_eq tick inBounds obs hstop hb maxSteps s⟩

/-- Witness for C6: with one observer that never requests a stop and a
boundary test that always passes, a budget of three ticks runs exactly
three ticks, each with exactly one observer invocation. -/
theorem C6_run_autonomous_witness :
    (∀ entry ∈ runAuto (fun n : Nat => n + 1) (fun _ => true) [fun _ => false] 3 0,
      entry.length = 1) ∧
    ticksRun (fun n : Nat => n + 1) (fun _ => true) [fun _ => false] 3 0 ≤ 3 ∧
    ticksRun (fun n : Nat => n + 1) (fun _ => true) [fun _ => false] 3 0 = 3 := by
  have h := C6_run_autonomous (fun n : Nat => n + 1) (fun _ => true) [fun _ => false] 3 0
  refine ⟨h.1, h.2.1, h.2.2 ?_ (fun x => rfl)⟩
  intro o ho x
  rw [List.mem_singleton] at ho
  rw [ho]

/-- Shared helper: the frontier search only ever reports success when the
goal is reachable from the start through open cells — every cell it ever
enqueues is reachable. -/
theorem searchLoop_sound (isOpen : Cell → Bool) (goal start : Cell) :
    ∀ (fuel : Nat) (frontier : List (Cell × List Cell)) (visited : List Cell)
      (p : List Cell),
      (∀ e ∈ frontier, ReachableOpen isOpen start e.1) →
      searchLoop isOpen goal fuel frontier visited = some p →
      ReachableOpen isOpen start goal := by
  intro fuel
  induction fuel with
  | zero => intro frontier visited p hf hs; simp [searchLoop] at hs
  | succ fuel ih =>
      intro frontier visited p hf hs
      match frontier with
      | [] => simp [searchLoop] at hs
      | (c, path) :: rest =>
          by_cases hc : c = goal
          · subst hc
            exact hf (c, path) (List.mem_cons_self _ _)
          · simp only [searchLoop, hc, if_false] at hs
            refine ih _ _ p ?_ hs
            intro e he
            rcases List.mem_append.mp he with he | he
            · exact hf _ (List.mem_cons_of_mem _ he)
            · obtain ⟨n, hn, rfl⟩ := List.mem_map.mp he
              obtain ⟨hmem, hflt⟩ := List.mem_filter.mp hn
              have hopen : isOpen n = true := by
                simp only [Bool.and_eq_true] at hflt
                exact hflt.1.1
              have hreach : ReachableOpen isOpen start c :=
                hf _ (List.mem_cons_self _ _)
              exact Relation.ReflTransGen.tail hreach ⟨hmem, hopen⟩

/-- C7: when the start or goal cell is blocked (its center inside the
inflated obstacle region or outside the grid), or the goal is unreachable
through open cells, `find_path` evaluates to `none` — a normal mission
failure value, not an exception. -/
theorem C7_find_path_none (g : GridSpec) (start goal : Cell)
    (h : gridOpen g start = false ∨ gridOpen g goal = false ∨
      ¬ ReachableOpen (gridOpen g) start goal) :
    find_path g start goal = none := by
  rcases h with h | h | h
  · simp [find_path, h]
  · simp [find_path, h]
  · by_cases hopen : (gridOpen g start && gridOpen g goal) = true
    · rw [find_path, if_pos hopen]
      rcases hs : searchLoop (gridOpen g) goal (g.nx * g.ny * g.nz + 1)
          [(start, [start])] [] with _ | p
      · rfl
      · refine absurd (searchLoop_sound (gridOpen g) goal start _ _ _ p ?_ hs) h
        intro e he
        rw [List.mem_singleton] at he
        subst he
        exact Relation.ReflTransGen.refl
    · rw [find_path, if_neg hopen]

/-- Witness for C7: on a 2x1x1 grid whose first cell center sits inside a
unit sphere obstacle, the start cell is blocked and `find_path` returns
`none`. -/
theorem C7_find_path_none_witness :
    gridOpen ⟨⟨0, 0, 0⟩, 1, 2, 1, 1, [Obstacle.sphere ⟨1 / 2, 1 / 2, 1 / 2⟩ 1], 0⟩
        (0, 0, 0) = false ∧
    find_path ⟨⟨0, 0, 0⟩, 1, 2, 1, 1, [Obstacle.sphere ⟨1 / 2, 1 / 2, 1 / 2⟩ 1], 0⟩
        (0, 0, 0) (1, 0, 0) = none :=
  ⟨by simp [gridOpen, cellCenter, pointWithinInflated, distSq],
   C7_find_path_none _ _ _
     (Or.inl (by simp [gridOpen, cellCenter, pointWithinInflated, distSq]))⟩

/-- Shared helper: one follower tick completes the mission exactly when it
was already complete or the completion trigger fires on this tick. -/
theorem wfStep_complete_iff (wps : List Vector3D) (thrSq : ℚ) (st : WFState)
    (p : Vector3D) :
    (wfStep wps thrSq st p).missionComplete = true ↔
      st.missionComplete = true ∨ wfTrigger wps thrSq st p = true := by
  unfold wfStep wfTrigger
  split_ifs with h1 h2 <;> rw [List.getD_eq_getElem?_getD] at h1
  · simp [h1, h2]
  · simp [h1, h2]
  · simp [h1]

/-- Shared helper: over a whole run, the mission is complete exactly when
the completion trigger fired at some tick of the run. -/
theorem wfFold_complete_iff (wps : List Vector3D) (thrSq : ℚ) :
    ∀ (ps : List Vector3D) (st : WFState),
      (ps.foldl (wfStep wps thrSq) st).missionComplete = true ↔
        st.missionComplete = true ∨
          ∃ i < ps.length,
            wfTrigger wps thrSq ((ps.take i).foldl (wfStep wps thrSq) st)
              (ps.getD i ⟨0, 0, 0⟩) = true := by
  intro ps
  induction ps with
  | nil => intro st; simp
  | cons p ps ih =>
      intro st
      rw [List.foldl_cons, ih (wfStep wps thrSq st p)]
      constructor
      · rintro (h | ⟨i, hi, ht⟩)
        · rcases (wfStep_complete_iff wps thrSq st p).mp h with h | h
          · exact Or.inl h
          · exact Or.inr ⟨0, by simp, by simpa using h⟩
        · refine Or.inr ⟨i + 1, by simpa using hi, ?_⟩
          simpa using ht
      · rintro (h | ⟨i, hi, ht⟩)
        · exact Or.inl ((wfStep_complete_iff wps thrSq st p).mpr (Or.inl h))
        · cases i with
          | zero =>
              refine Or.inl ((wfStep_complete_iff wps thrSq st p).mpr (Or.inr ?_))
              simpa using ht
          | succ i =>
              refine Or.inr ⟨i, by simpa using hi, ?_⟩
              simpa using ht

/-- Shared helper: a completed mission stays completed over any further
ticks. -/
theorem wfFold_mono (wps : List Vector3D) (thrSq : ℚ) (ps qs : List Vector3D)
    (st : WFState) (h : (ps.foldl (wfStep wps thrSq) st).missionComplete = true) :
    ((ps ++ qs).foldl (wfStep wps thrSq) st).missionComplete = true := by
  rw [List.foldl_append]
  revert h
  generalize ps.foldl (wfStep wps thrSq) st = st'
  induction qs generalizing st' with
  | nil => exact id
  | cons q qs ih =>
      intro h
      exact ih _ ((wfStep_complete_iff wps thrSq st' q).mpr (Or.inl h))

/-- Counterexample to C8 as stated: with waypoints [(0,0,0), (10,0,0)] and
threshold 2 (squared: 4), a vehicle standing at (10,0,0) is within
threshold of the final waypoint on the very first tick, yet
`mission_complete` is still false after that tick, because the follower is
still targeting the first waypoint. -/
theorem C8_counterexample :
    distSq ⟨10, 0, 0⟩ ⟨10, 0, 0⟩ < 4 ∧
    ([⟨0, 0, 0⟩, ⟨10, 0, 0⟩] : List Vector3D).getD 1 ⟨0, 0, 0⟩ = ⟨10, 0, 0⟩ ∧
    (wfRun [⟨0, 0, 0⟩, ⟨10, 0, 0⟩] 4 [⟨10, 0, 0⟩]).missionComplete = false := by
  refine ⟨by norm_num [distSq], rfl, ?_⟩
  have h : ¬ distSq ⟨10, 0, 0⟩ ⟨0, 0, 0⟩ < 4 := by norm_num [distSq]
  simp [wfRun, wfInit, wfStep, h]

/-- C8 (amended): `mission_complete` is false at every tick before the
first tick at which the follower targets the final waypoint within
`waypoint_threshold`, becomes true exactly at that tick, and never reverts
afterwards, however the vehicle moves. -/
theorem C8_mission_complete (wps : List Vector3D) (thrSq : ℚ) (ps : List Vector3D) :
    ((wfRun wps thrSq ps).missionComplete = true ↔
      ∃ i < ps.length,
        wfTrigger wps thrSq (wfRun wps thrSq (ps.take i)) (ps.getD i ⟨0, 0, 0⟩) = true) ∧
    (∀ qs, (wfRun wps thrSq ps).missionComplete = true →
      (wfRun wps thrSq (ps ++ qs)).missionComplete = true) := by
  constructor
  · rw [show wfRun wps thrSq ps = ps.foldl (wfStep wps thrSq) wfInit from rfl,
      wfFold_complete_iff wps thrSq ps wfInit]
    simp [wfRun, wfInit]
  · intro qs h
    exact wfFold_mono wps thrSq ps qs wfInit h

/-- Witness for C8 (amended): a follower with a single waypoint completes
on a tick at the waypoint, and the mission stays complete after the
vehicle then moves far away. -/
theorem C8_mission_complete_witness :
    (wfRun [⟨0, 0, 0⟩] 4 ([⟨0, 0, 0⟩] ++ [⟨100, 0, 0⟩])).missionComplete = true := by
  refine (C8_mission_complete [⟨0, 0, 0⟩] 4 [⟨0, 0, 0⟩]).2 [⟨100, 0, 0⟩] ?_
  have h : distSq ⟨0, 0, 0⟩ ⟨0, 0, 0⟩ < 4 := by norm_num [distSq]
  simp [wfRun, wfInit, wfStep, h]
